import Mathlib

/-!
Shallow embedding of the dynners core (IP resolution / change detection /
DDNS synchronization engine) and proofs about it.

Modelled components, in dependency order:
  * little-endian byte encoding helpers (`u32::to_le_bytes` and friends)
  * `IpAddr` (std::net::IpAddr) as a tagged union of 32- and 128-bit values
  * `PersistentState` with `write_to` / `from_reader` (src/persistence.rs)
  * the textual address parsers (std FromStr for Ipv4Addr/Ipv6Addr, u8)
    and `NetworkV4` / `NetworkV6` with their FromStr (src/ip/netmask.rs)
  * `DynamicIp` (src/ip/mod.rs); the external resolution of an address by a
    configured source (exec / interface / HTTP) is an effectful collaborator,
    so `update` takes the resolution outcome as an explicit argument
  * the shared DynDNS-v2 engine (src/services/shared_dyndns.rs); the HTTP
    call outcome is likewise an explicit argument, and the `unreachable!()`
    branch is modelled as a distinguished `panicked` outcome
  * one cycle of the orchestrator main loop (src/main.rs, lines 169-254)

Machine integers are modelled as `Nat` (bytes) or `Fin (2^w)` (addresses);
overflow points of the source (`name.len() as u32`) are modelled with `% 2^32`.
-/

set_option maxRecDepth 4000

namespace Dynners

/-- Decidable equality on `Except`, needed to evaluate concrete outcomes. -/
instance {ε α : Type} [DecidableEq ε] [DecidableEq α] : DecidableEq (Except ε α) :=
  fun x y =>
    match x, y with
    | .ok a, .ok b =>
      if h : a = b then .isTrue (h ▸ rfl)
      else .isFalse (by intro hh; cases hh; exact h rfl)
    | .error a, .error b =>
      if h : a = b then .isTrue (h ▸ rfl)
      else .isFalse (by intro hh; cases hh; exact h rfl)
    | .ok _, .error _ => .isFalse (by intro hh; cases hh)
    | .error _, .ok _ => .isFalse (by intro hh; cases hh)

/-! ### Little-endian byte encoding -/

/-- `natToLE k n` is the `k`-byte little-endian encoding of `n`
(the model of `u32::to_le_bytes`, `u64::to_le_bytes`, `u128::to_le_bytes`;
it encodes `n % 2^(8*k)`). -/
def natToLE : Nat → Nat → List Nat
  | 0, _ => []
  | k + 1, n => n % 256 :: natToLE k (n / 256)

/-- `leToNat bs` reads a little-endian byte sequence back into a number
(the model of `u32::from_le_bytes` and friends). -/
def leToNat : List Nat → Nat
  | [] => 0
  | b :: bs => b + 256 * leToNat bs

/-! ### IP addresses -/

/-- std::net::IpAddr: a tagged union of a 32-bit IPv4 and a 128-bit IPv6
address.  The numeric value is the big-endian composition of the octets
(as produced by `Ipv4Addr::from(u32)` / `Ipv6Addr::from(u128)`). -/
inductive IpAddr where
  | v4 (a : Fin (2 ^ 32))
  | v6 (a : Fin (2 ^ 128))
deriving DecidableEq, Repr

/-- `IpAddr::is_ipv4`. -/
def IpAddr.isV4 : IpAddr → Bool
  | .v4 _ => true
  | .v6 _ => false

/-- `IpAddr::is_ipv6`. -/
def IpAddr.isV6 : IpAddr → Bool
  | .v4 _ => false
  | .v6 _ => true

/-! ### UTF-8 validity (what `String::from_utf8` checks, RFC 3629) -/

/-- A UTF-8 continuation byte. -/
def isCont (b : Nat) : Bool := 0x80 ≤ b && b ≤ 0xBF

/-- Validity of a byte sequence as UTF-8, exactly the shortest-form,
surrogate-free encoding accepted by `String::from_utf8`. -/
def utf8Valid : List Nat → Bool
  | [] => true
  | b :: rest =>
    if b ≤ 0x7F then utf8Valid rest
    else if 0xC2 ≤ b && b ≤ 0xDF then
      match rest with
      | c :: rest2 => isCont c && utf8Valid rest2
      | [] => false
    else if b = 0xE0 then
      match rest with
      | c :: d :: rest2 => (0xA0 ≤ c && c ≤ 0xBF) && isCont d && utf8Valid rest2
      | _ => false
    else if (0xE1 ≤ b && b ≤ 0xEC) || b = 0xEE || b = 0xEF then
      match rest with
      | c :: d :: rest2 => isCont c && isCont d && utf8Valid rest2
      | _ => false
    else if b = 0xED then
      match rest with
      | c :: d :: rest2 => (0x80 ≤ c && c ≤ 0x9F) && isCont d && utf8Valid rest2
      | _ => false
    else if b = 0xF0 then
      match rest with
      | c :: d :: e :: rest2 =>
          (0x90 ≤ c && c ≤ 0xBF) && isCont d && isCont e && utf8Valid rest2
      | _ => false
    else if 0xF1 ≤ b && b ≤ 0xF3 then
      match rest with
      | c :: d :: e :: rest2 => isCont c && isCont d && isCont e && utf8Valid rest2
      | _ => false
    else if b = 0xF4 then
      match rest with
      | c :: d :: e :: rest2 =>
          (0x80 ≤ c && c ≤ 0x8F) && isCont d && isCont e && utf8Valid rest2
      | _ => false
    else false

/-! ### PersistentState (src/persistence.rs)

Logical IP names (Rust `Box<str>` / `String`) are modelled as their UTF-8
byte sequences (`List Nat`), since that is how the file format stores them;
the Rust `String` type invariant (valid UTF-8) becomes an explicit
hypothesis.  The `HashMap` is modelled as its iteration sequence, an
association list with unique keys. -/

/-- The persistent state (struct `PersistentState`). -/
structure PersistentState where
  version : Nat
  update_timestamp : Nat
  config_hash : Nat
  ip_addresses : List (List Nat × IpAddr)
deriving DecidableEq, Repr

/-- The magic constant `b"dynners\0"`. -/
def magicBytes : List Nat := [0x64, 0x79, 0x6E, 0x6E, 0x65, 0x72, 0x73, 0x00]

/-- `STATE_VERSION`. -/
def STATE_VERSION : Nat := 1

/-- io::Error kinds produced by `PersistentState::from_reader`. -/
inductive ReadErr where
  | unexpectedEof (field : String)
  | invalidInput (msg : String)
  | unsupported (msg : String)
deriving DecidableEq, Repr

/-- The `read_field` closure: take `len` bytes from the stream; if fewer
remain, fail with `UnexpectedEof` naming the field. -/
def readField (input : List Nat) (field : String) (len : Nat) :
    Except ReadErr (List Nat × List Nat) :=
  let read := input.take len
  if read.length = len then .ok (read, input.drop len)
  else .error (.unexpectedEof field)

/-- On-disk encoding of a single map entry:
`name_length:u32le, name bytes, ip_type:u8, address (4 or 16 bytes le)`.
`name.len() as u32` truncates, hence the `natToLE 4` of the full length. -/
def encodeEntry (e : List Nat × IpAddr) : List Nat :=
  natToLE 4 e.1.length ++ e.1 ++
    (match e.2 with
     | .v4 a => 0 :: natToLE 4 a.val
     | .v6 a => 1 :: natToLE 16 a.val)

/-- Concatenated encoding of the entry sequence (in map iteration order). -/
def encodeEntries : List (List Nat × IpAddr) → List Nat
  | [] => []
  | e :: es => encodeEntry e ++ encodeEntries es

/-- `PersistentState::write_to`, modelled as the sequence of `writer.write`
calls accumulating into a byte buffer (the `for` loop is a fold over
`writeEntryStep`, the loop body). -/
def writeEntryStep (buf : List Nat) (e : List Nat × IpAddr) : List Nat :=
  let buf := buf ++ natToLE 4 e.1.length
  let buf := buf ++ e.1
  match e.2 with
  | .v4 a => buf ++ [0] ++ natToLE 4 a.val
  | .v6 a => buf ++ [1] ++ natToLE 16 a.val

def PersistentState.write_to (s : PersistentState) : List Nat :=
  let buf := magicBytes
  let buf := buf ++ natToLE 4 s.version
  let buf := buf ++ natToLE 8 s.update_timestamp
  let buf := buf ++ natToLE 8 s.config_hash
  s.ip_addresses.foldl writeEntryStep buf

/-- The layout as the specification document words it: header, entries, then
a terminating zero-length name (a 4-byte zero name-length field).  This is
the spec-side definition used to compare `write_to` against the claimed
layout; it is NOT derived from the source. -/
def specWordedLayout (s : PersistentState) : List Nat :=
  magicBytes ++ natToLE 4 s.version ++ natToLE 8 s.update_timestamp ++
    natToLE 8 s.config_hash ++ encodeEntries s.ip_addresses ++ [0, 0, 0, 0]

/-- The entry-reading loop of `from_reader`
(`while let Ok(name_len) = read_field(..., "name length", 4)`).
An EOF (or any read error) on the 4-byte name-length field ends the loop
normally; a zero name length breaks out of the loop; EOF inside any other
field is a hard error.  The `fuel` argument only bounds the recursion: every
iteration that recurses consumes at least 10 bytes of input, so the
`input.length + 1` fuel supplied by `from_reader` can never run out and the
fuel pattern does not change the modelled semantics. -/
def decodeEntries : Nat → List Nat → Except ReadErr (List (List Nat × IpAddr))
  | 0, _ => .ok []
  | fuel + 1, input =>
    match readField input "name length" 4 with
    | .error _ => .ok []
    | .ok (lenBytes, rest) =>
      let nameLen := leToNat lenBytes
      if nameLen = 0 then .ok []
      else
        -- the source reuses the field label "version" for the name bytes
        match readField rest "version" nameLen with
        | .error e => .error e
        | .ok (name, rest2) =>
          if utf8Valid name then
            match readField rest2 "IP type" 1 with
            | .error e => .error e
            | .ok (tpBytes, rest3) =>
              -- read_field guarantees exactly one byte here
              let ipType := tpBytes.headD 0
              if ipType = 0 then
                match readField rest3 "IPv4 address" 4 with
                | .error e => .error e
                | .ok (ipBytes, rest4) =>
                  match decodeEntries fuel rest4 with
                  | .error e => .error e
                  | .ok entries =>
                    -- bytes are < 256, so the `%` is the identity on real input
                    .ok ((name, IpAddr.v4 ⟨leToNat ipBytes % 2 ^ 32,
                            Nat.mod_lt _ (by norm_num)⟩) :: entries)
              else if ipType = 1 then
                match readField rest3 "IPv6 address" 16 with
                | .error e => .error e
                | .ok (ipBytes, rest4) =>
                  match decodeEntries fuel rest4 with
                  | .error e => .error e
                  | .ok entries =>
                    .ok ((name, IpAddr.v6 ⟨leToNat ipBytes % 2 ^ 128,
                            Nat.mod_lt _ (by norm_num)⟩) :: entries)
              else .error (.invalidInput "unexpected IP type")
          else .error (.invalidInput "unexpected non-UTF8 IP address name")

/-- `PersistentState::from_reader`. -/
def PersistentState.from_reader (input : List Nat) :
    Except ReadErr PersistentState :=
  match readField input "magic" 8 with
  | .error e => .error e
  | .ok (magic, rest) =>
    if magic ≠ magicBytes then
      .error (.invalidInput "unexpected file format: invalid magic")
    else
      match readField rest "version" 4 with
      | .error e => .error e
      | .ok (vBytes, rest2) =>
        let version := leToNat vBytes
        if version > STATE_VERSION then
          .error (.unsupported "the persistent state file is too new")
        else
          match readField rest2 "update timestamp" 8 with
          | .error e => .error e
          | .ok (tsBytes, rest3) =>
            match readField rest3 "config hash" 8 with
            | .error e => .error e
            | .ok (hashBytes, rest4) =>
              match decodeEntries (rest4.length + 1) rest4 with
              | .error e => .error e
              | .ok entries =>
                .ok { version := version
                      update_timestamp := leToNat tsBytes
                      config_hash := leToNat hashBytes
                      ip_addresses := entries }

/-- Rust type invariant of one map entry: the name is the non-degenerate
UTF-8 byte sequence of a `Box<str>` key (byte-valued, valid UTF-8) whose
length survives the `as u32` cast. -/
def EntryWf (e : List Nat × IpAddr) : Prop :=
  e.1 ≠ [] ∧ e.1.length < 2 ^ 32 ∧ (∀ b ∈ e.1, b < 256) ∧ utf8Valid e.1 = true

instance (e : List Nat × IpAddr) : Decidable (EntryWf e) := by
  unfold EntryWf; infer_instance

/-- Rust type invariants of the whole structure (`u32`/`u64` fields). -/
def PersistentState.Wf (s : PersistentState) : Prop :=
  s.version < 2 ^ 32 ∧ s.update_timestamp < 2 ^ 64 ∧ s.config_hash < 2 ^ 64 ∧
    ∀ e ∈ s.ip_addresses, EntryWf e

/-! ### Textual parsers (std `FromStr` for `u8`, `Ipv4Addr`, `Ipv6Addr`)

All parsers operate on `List Char` (the character sequence of the Rust
`&str`), which keeps every definition kernel-evaluable. -/

/-- `str::split(char)` semantics: split on every occurrence of `c`,
keeping empty segments (splitting the empty string yields one empty
segment). -/
def splitOnChar (c : Char) : List Char → List (List Char)
  | [] => [[]]
  | x :: xs =>
    match splitOnChar c xs with
    | s :: rest => if x = c then [] :: s :: rest else (x :: s) :: rest
    | [] => [[]]

/-- Split on every non-overlapping occurrence of the two-character
separator `"::"` (the semantics of `str::split("::")`, scanning left to
right). -/
def splitOnColonColon : List Char → List (List Char)
  | ':' :: ':' :: xs => [] :: splitOnColonColon xs
  | x :: xs =>
    match splitOnColonColon xs with
    | s :: rest => (x :: s) :: rest
    | [] => [[]]
  | [] => [[]]

/-- Decimal digit test and value. -/
def digitVal (c : Char) : Nat := c.toNat - '0'.toNat

/-- Hexadecimal digit test. -/
def isHexDigitChar (c : Char) : Bool :=
  ('0' ≤ c && c ≤ '9') || ('a' ≤ c && c ≤ 'f') || ('A' ≤ c && c ≤ 'F')

/-- Hexadecimal digit value. -/
def hexVal (c : Char) : Nat :=
  if '0' ≤ c && c ≤ '9' then c.toNat - '0'.toNat
  else if 'a' ≤ c && c ≤ 'f' then c.toNat - 'a'.toNat + 10
  else c.toNat - 'A'.toNat + 10

/-- Numeric value of a decimal digit string. -/
def decValue (cs : List Char) : Nat :=
  cs.foldl (fun a c => a * 10 + digitVal c) 0

/-- Numeric value of a hexadecimal digit string. -/
def hexValue (cs : List Char) : Nat :=
  cs.foldl (fun a c => a * 16 + hexVal c) 0

/-- `u8::from_str`: an optional leading `+`, then one or more decimal
digits; any value that does not fit in a `u8` is an overflow error. -/
def parseU8 (cs : List Char) : Option Nat :=
  let digits := match cs with
    | '+' :: rest => rest
    | _ => cs
  if digits ≠ [] && digits.all Char.isDigit then
    let v := decValue digits
    if v < 256 then some v else none
  else none

/-- One dotted-quad octet as accepted by the std IPv4 parser: one to three
decimal digits, no leading zero, value at most 255. -/
def parseOctet (cs : List Char) : Option (Fin 256) :=
  if cs ≠ [] && cs.all Char.isDigit && cs.length ≤ 3 &&
      (cs.length = 1 || cs.headD '0' ≠ '0') then
    let v := decValue cs
    if h : v < 256 then some ⟨v, h⟩ else none
  else none

/-- Octets to the numeric value of `Ipv4Addr` (big-endian composition,
as in `Ipv4Addr::from(u32)`). -/
def v4FromOctets (a b c d : Fin 256) : Fin (2 ^ 32) :=
  ⟨((a.val * 256 + b.val) * 256 + c.val) * 256 + d.val, by
    have ha := a.isLt; have hb := b.isLt; have hc := c.isLt; have hd := d.isLt
    norm_num at *
    omega⟩

/-- `Ipv4Addr::from_str`: exactly four octets separated by dots. -/
def parseIpv4 (cs : List Char) : Option (Fin (2 ^ 32)) :=
  match splitOnChar '.' cs with
  | [a, b, c, d] => do
    let a ← parseOctet a
    let b ← parseOctet b
    let c ← parseOctet c
    let d ← parseOctet d
    pure (v4FromOctets a b c d)
  | _ => none

/-- One 16-bit group of an IPv6 address: one to four hex digits (leading
zeros allowed). -/
def parseHexGroup (cs : List Char) : Option (Fin 65536) :=
  if cs ≠ [] && cs.all isHexDigitChar && cs.length ≤ 4 then
    let v := hexValue cs
    -- at most four hex digits always fit; the check discharges the bound
    if h : v < 65536 then some ⟨v, h⟩ else none
  else none

/-- Big-endian composition of 16-bit groups (as in
`Ipv6Addr::from(u128)` from eight `u16` segments). -/
def groupsToNat : List (Fin 65536) → Nat
  | [] => 0
  | g :: gs => g.val * 2 ^ (16 * gs.length) + groupsToNat gs

/-- A trailing run of groups in which every element is a hex group except
that the final element may be an embedded dotted-quad IPv4 address
(occupying two groups).  This mirrors std `read_groups`: the parser
commits to an embedded IPv4 only directly at the end of the group run. -/
def parseEndGroups : List (List Char) → Option (List (Fin 65536))
  | [] => some []
  | [p] =>
    match parseHexGroup p with
    | some g => some [g]
    | none =>
      match parseIpv4 p with
      | some v =>
        some [⟨v.val / 65536, by have := v.isLt; norm_num at *; omega⟩,
              ⟨v.val % 65536, Nat.mod_lt _ (by norm_num)⟩]
      | none => none
  | p :: rest =>
    match parseHexGroup p, parseEndGroups rest with
    | some g, some gs => some (g :: gs)
    | _, _ => none

/-- A run of plain hex groups (the part before a `::`; std rejects an
embedded IPv4 that is not at the very end of the address). -/
def parseHexGroups : List (List Char) → Option (List (Fin 65536))
  | [] => some []
  | p :: rest =>
    match parseHexGroup p, parseHexGroups rest with
    | some g, some gs => some (g :: gs)
    | _, _ => none

/-- `Ipv6Addr::from_str`: either eight groups with no `::` (the last may
be an embedded IPv4 filling two groups), or a single `::` with front and
back group runs totalling at most seven groups, the gap filled with zero
groups. -/
def parseIpv6 (cs : List Char) : Option (Fin (2 ^ 128)) :=
  match splitOnColonColon cs with
  | [whole] =>
    match parseEndGroups (splitOnChar ':' whole) with
    | some gs =>
      if gs.length = 8 then
        some ⟨groupsToNat gs % 2 ^ 128, Nat.mod_lt _ (by norm_num)⟩
      else none
    | none => none
  | [front, back] =>
    let fparts := if front = [] then [] else splitOnChar ':' front
    let bparts := if back = [] then [] else splitOnChar ':' back
    match parseHexGroups fparts, parseEndGroups bparts with
    | some fgs, some bgs =>
      if fgs.length + bgs.length ≤ 7 then
        let gs := fgs ++ List.replicate (8 - fgs.length - bgs.length) (0 : Fin 65536) ++ bgs
        some ⟨groupsToNat gs % 2 ^ 128, Nat.mod_lt _ (by norm_num)⟩
      else none
    | _, _ => none
  | _ => none

/-- `IpAddr::from_str` tries IPv4 first, then IPv6. -/
def parseIpAddr (cs : List Char) : Option IpAddr :=
  match parseIpv4 cs with
  | some a => some (.v4 a)
  | none => (parseIpv6 cs).map .v6

/-! ### Netmask matcher (src/ip/netmask.rs) -/

/-- struct `NetworkV4`. -/
structure NetworkV4 where
  address : Fin (2 ^ 32)
  mask : Fin (2 ^ 32)
deriving DecidableEq, Repr

/-- struct `NetworkV6`. -/
structure NetworkV6 where
  address : Fin (2 ^ 128)
  mask : Fin (2 ^ 128)
deriving DecidableEq, Repr

/-- enum `NetworkParseErr`. -/
inductive NetworkParseErr where
  | maskUnspecified
  | invalidAddress
  | invalidMask
  | maskTooLarge
deriving DecidableEq, Repr

/-- `NetworkV4::from_prefix`: `bits = 32 - plen`, and the mask is
`!0u32 >> bits << bits` when `bits < 32`, else `0`.  (Only ever called
with `plen ≤ 32`.) -/
def NetworkV4.from_prefix (addr : Fin (2 ^ 32)) (plen : Nat) : NetworkV4 :=
  let bits := 32 - plen
  let mask : Fin (2 ^ 32) :=
    if bits < 32 then
      ⟨((2 ^ 32 - 1) >>> bits) <<< bits, by
        simp only [Nat.shiftLeft_eq, Nat.shiftRight_eq_div_pow]
        exact lt_of_le_of_lt (Nat.div_mul_le_self _ _) (by norm_num)⟩
    else ⟨0, by norm_num⟩
  ⟨addr, mask⟩

/-- `NetworkV4::from_mask`. -/
def NetworkV4.from_mask (addr mask : Fin (2 ^ 32)) : NetworkV4 := ⟨addr, mask⟩

/-- `NetworkV6::from_prefix` (same shape with width 128). -/
def NetworkV6.from_prefix (addr : Fin (2 ^ 128)) (plen : Nat) : NetworkV6 :=
  let bits := 128 - plen
  let mask : Fin (2 ^ 128) :=
    if bits < 128 then
      ⟨((2 ^ 128 - 1) >>> bits) <<< bits, by
        simp only [Nat.shiftLeft_eq, Nat.shiftRight_eq_div_pow]
        exact lt_of_le_of_lt (Nat.div_mul_le_self _ _) (by norm_num)⟩
    else ⟨0, by norm_num⟩
  ⟨addr, mask⟩

/-- `NetworkV6::from_mask`. -/
def NetworkV6.from_mask (addr mask : Fin (2 ^ 128)) : NetworkV6 := ⟨addr, mask⟩

/-- `s.find('/')` followed by `split_at`: the text before the first slash
and the text after it (`none` when the string has no slash). -/
def splitAtFirstSlash (cs : List Char) : Option (List Char × List Char) :=
  let l := cs.takeWhile (fun c => c ≠ '/')
  match cs.dropWhile (fun c => c ≠ '/') with
  | [] => none
  | _ :: rest => some (l, rest)

/-- `<NetworkV4 as FromStr>::from_str`: split at the first `/`; the left
side must be an IPv4 address; the right side is tried as a `u8` prefix
length (at most 32, else `MaskTooLarge`), then as an IPv4 mask address,
else `InvalidMask`. -/
def NetworkV4.from_str (s : List Char) : Except NetworkParseErr NetworkV4 :=
  match splitAtFirstSlash s with
  | none => .error .maskUnspecified
  | some (addrS, maskS) =>
    match parseIpv4 addrS with
    | none => .error .invalidAddress
    | some addr =>
      match parseU8 maskS with
      | some plen =>
        if plen ≤ 32 then .ok (NetworkV4.from_prefix addr plen)
        else .error .maskTooLarge
      | none =>
        match parseIpv4 maskS with
        | some mask => .ok (NetworkV4.from_mask addr mask)
        | none => .error .invalidMask

/-- `<NetworkV6 as FromStr>::from_str` (same shape, width 128). -/
def NetworkV6.from_str (s : List Char) : Except NetworkParseErr NetworkV6 :=
  match splitAtFirstSlash s with
  | none => .error .maskUnspecified
  | some (addrS, maskS) =>
    match parseIpv6 addrS with
    | none => .error .invalidAddress
    | some addr =>
      match parseU8 maskS with
      | some plen =>
        if plen ≤ 128 then .ok (NetworkV6.from_prefix addr plen)
        else .error .maskTooLarge
      | none =>
        match parseIpv6 maskS with
        | some mask => .ok (NetworkV6.from_mask addr mask)
        | none => .error .invalidMask

/-! ### DynamicIp (src/ip/mod.rs)

The build without the optional `regex` cargo feature is modelled, so the
`Http` method carries only a URL.  Resolving an address is an effectful
call into the exec / interface / HTTP collaborators, so `update` receives
the resolution outcome as an explicit argument. -/

/-- enum `IpVersion` (src/config.rs). -/
inductive IpVersion where
  | v4
  | v6
deriving DecidableEq, Repr

/-- enum `IpConfigMethod` (src/config.rs), `regex` feature disabled. -/
inductive IpConfigMethod where
  | exec (command : String)
  | interface (iface : String) (matchNet : String)
  | http (url : String)
deriving DecidableEq, Repr

/-- struct `IpConfig` (src/config.rs). -/
structure IpConfig where
  version : IpVersion
  method : IpConfigMethod
deriving DecidableEq, Repr

/-- enum `IpService`. -/
inductive IpService where
  | execV4 (command : String)
  | httpV4 (url : String)
  | interfaceV4 (iface : String) (matchNet : NetworkV4)
  | execV6 (command : String)
  | httpV6 (url : String)
  | interfaceV6 (iface : String) (matchNet : NetworkV6)
deriving DecidableEq, Repr

/-- enum `DynamicIpError` (`regex` feature disabled). -/
inductive DynamicIpError where
  | executionFailure (msg : String)
  | interfaceFailure
  | httpFailure (msg : String)
  | invalidNetwork (e : NetworkParseErr)
deriving DecidableEq, Repr

/-- Rust `str::trim` (ASCII whitespace suffices for the inputs at hand). -/
def trimChars (cs : List Char) : List Char :=
  ((cs.dropWhile Char.isWhitespace).reverse.dropWhile Char.isWhitespace).reverse

/-- `IpService::from_config`: an empty `matches` string defaults to the
match-all network of the family; the chosen string is trimmed and parsed,
a parse failure surfacing as `InvalidNetwork`. -/
def IpService.from_config (c : IpConfig) : Except DynamicIpError IpService :=
  match c.version, c.method with
  | .v4, .exec command => .ok (.execV4 command)
  | .v4, .interface iface matchNet =>
    let m := if matchNet = "" then "0.0.0.0/0" else matchNet
    match NetworkV4.from_str (trimChars m.toList) with
    | .ok n => .ok (.interfaceV4 iface n)
    | .error e => .error (.invalidNetwork e)
  | .v4, .http url => .ok (.httpV4 url)
  | .v6, .exec command => .ok (.execV6 command)
  | .v6, .interface iface matchNet =>
    let m := if matchNet = "" then "::/0" else matchNet
    match NetworkV6.from_str (trimChars m.toList) with
    | .ok n => .ok (.interfaceV6 iface n)
    | .error e => .error (.invalidNetwork e)
  | .v6, .http url => .ok (.httpV6 url)

/-- struct `DynamicIp`. -/
structure DynamicIp where
  address : Option IpAddr
  dirty : Bool
  service : IpService
deriving DecidableEq, Repr

/-- `DynamicIp::from_config`: no cached address, and the dirty bit starts
cleared. -/
def DynamicIp.from_config (c : IpConfig) : Except DynamicIpError DynamicIp :=
  (IpService.from_config c).map fun s =>
    { address := none, dirty := false, service := s }

/-- `DynamicIp::is_dirty`. -/
def DynamicIp.is_dirty (d : DynamicIp) : Bool := d.dirty

/-- `DynamicIp::update`, given the outcome of resolving via the bound
source: an error propagates and leaves the state untouched; a resolved
address replaces the cache, the dirty bit becoming the comparison against
the previously cached address (always dirty when there was none). -/
def DynamicIp.update (d : DynamicIp)
    (resolved : Except DynamicIpError IpAddr) : DynamicIp × Option DynamicIpError :=
  match resolved with
  | .error e => (d, some e)
  | .ok newIp =>
    let dirty := match d.address with
      | some oldIp => decide (oldIp ≠ newIp)
      | none => true
    ({ d with dirty := dirty, address := some newIp }, none)

/-- Modelled from the spec: `DynamicIp::update_from_cache` is called from
main.rs (line 125) but its definition is absent from src/ip/mod.rs.  The
spec (§4.2, as `DynamicIp.seed`) says it primes the cache from the
persistent state at startup without marking the IP dirty. -/
def DynamicIp.update_from_cache (d : DynamicIp) (ip : IpAddr) : DynamicIp :=
  { d with address := some ip }

/-! ### Shared DynDNS-v2 engine (src/services/shared_dyndns.rs) -/

/-- enum `Suspension` (src/services/mod.rs). -/
inductive Suspension where
  | cycles (n : Nat)
  | indefinite
deriving DecidableEq, Repr

/-- enum `DdnsUpdateError`, restricted to the variants the shared engine
produces. -/
inductive DdnsUpdateError where
  | dynDns (name msg : String)
  | suspended (s : Suspension)
  | transportError (msg : String)
deriving DecidableEq, Repr

/-- struct `Service` (shared_dyndns).  The `config` and pre-computed
`auth` fields only shape the outgoing HTTP request text and are omitted;
`suspended` is the mutable backoff state the claims are about. -/
structure DynService where
  name : String
  server : String
  suspended : Suspension
deriving DecidableEq, Repr

/-- Outcome of `request.call()` (crate::http): either a response whose
body could or could not be read into a string (`Ok(resp)` and
`Err(Error::Status(_, resp))` are handled identically by the engine), or
a transport-level failure. -/
inductive CallOutcome where
  | response (body : Except String String)
  | transport (msg : String)
deriving DecidableEq, Repr

/-- `FixedVec<IpAddr, 2>::push`: pushing onto a full vector is a no-op
(the rejected element is returned in Rust and discarded by the engine). -/
def fixedPush (l : List IpAddr) (x : IpAddr) : List IpAddr :=
  if l.length < 2 then l ++ [x] else l

/-- `Option::strip_prefix`-style front match: `stripFront p s` is the rest
of `s` after the literal `p`, if `p` is a front segment of `s`. -/
def stripFront : List Char → List Char → Option (List Char)
  | [], s => some s
  | _ :: _, [] => none
  | p :: ps, c :: cs => if c = p then stripFront ps cs else none

/-- `str::starts_with` for a literal. -/
def startsWithLit (p : String) (cs : List Char) : Bool :=
  (stripFront p.toList cs).isSome

/-- The error-message vocabulary for permanent (client-side) responses. -/
def mapKnownResponse (resp : List Char) : String :=
  if startsWithLit "!donator" resp then "Only credited users are allowed"
  else if startsWithLit "badauth" resp then "Bad authentication details were provided"
  else if startsWithLit "notfqdn" resp then "Domain must be fully-qualified"
  else if startsWithLit "nohost" resp then "Hostname does not exist in the user account"
  else if startsWithLit "abuse" resp then "Domain is blocked because of abuse"
  else if startsWithLit "numhost" resp then "Too many hosts are specified"
  else if startsWithLit "badagent" resp then "Bad user agent was provided"
  else String.mk resp

/-- The first comma-separated piece of a `"good"` response's remainder,
trimmed and parsed as an address (`split.next()` then `parse`). -/
def goodFirst (rest : List Char) : Option IpAddr :=
  match splitOnChar ',' rest with
  | x :: _ => parseIpAddr (trimChars x)
  | [] => none

/-- The second comma-separated piece, likewise (`split.next()` again). -/
def goodSecond (rest : List Char) : Option IpAddr :=
  match splitOnChar ',' rest with
  | _ :: y :: _ => parseIpAddr (trimChars y)
  | _ => none

/-- The two `result.push(ip)` statements of the `"good"` branch applied to
a fresh `FixedVec`. -/
def pushPair (o1 o2 : Option IpAddr) : List IpAddr :=
  let result : List IpAddr := []
  let result := match o1 with
    | some ip => fixedPush result ip
    | none => result
  match o2 with
  | some ip => fixedPush result ip
  | none => result

/-- Result of one `update_record` call on the shared engine: the service
with its possibly-changed suspension state, the returned value, and
whether the network was contacted at all.  `panicked` models the
`unreachable!()` taken when the submitted slice holds neither an IPv4 nor
an IPv6 address (the request builder runs before `.call()`, so the panic
precedes any network contact). -/
inductive UpdateOutcome where
  | ok (confirmed : List IpAddr)
  | err (e : DdnsUpdateError)
  | panicked
deriving DecidableEq, Repr

/-- One `update_record` step. -/
structure EngineStep where
  service : DynService
  outcome : UpdateOutcome
  contacted : Bool
deriving DecidableEq, Repr

/-- `Service::update_record` for the shared DynDNS-v2 engine.
`update_rate` is the configured polling interval (`None` when polling is
disabled); `call` is the outcome of the HTTP request the engine would
issue. -/
def Service.update_record (s : DynService) (update_rate : Option Nat)
    (ips : List IpAddr) (call : CallOutcome) : EngineStep :=
  match s.suspended with
  | .cycles (n + 1) =>
    { service := { s with suspended := .cycles n }
      outcome := .err (.suspended (.cycles n))
      contacted := false }
  | .indefinite =>
    { service := s, outcome := .err (.suspended .indefinite), contacted := false }
  | .cycles 0 =>
    let ipv4 := ips.find? IpAddr.isV4
    let ipv6 := ips.find? IpAddr.isV6
    if ipv4 = none ∧ ipv6 = none then
      { service := s, outcome := .panicked, contacted := false }
    else
      match call with
      | .transport msg =>
        { service := s, outcome := .err (.transportError msg), contacted := true }
      | .response (.error msg) =>
        -- into_string() failed; the `?` returns before any suspension change
        { service := s, outcome := .err (.dynDns s.name msg), contacted := true }
      | .response (.ok body) =>
        let resp := body.toList
        match stripFront "good".toList resp with
        | some rest =>
          let ip1 := goodFirst rest
          let ip2 := goodSecond rest
          -- some services return "good" without echoing the addresses
          let (ip1, ip2) :=
            if ip1 = none ∧ ip2 = none then (ipv4, ipv6) else (ip1, ip2)
          { service := s, outcome := .ok (pushPair ip1 ip2), contacted := true }
        | none =>
          if startsWithLit "nochg" resp then
            { service := s, outcome := .ok [], contacted := true }
          else if startsWithLit "911" resp || startsWithLit "dnserr" resp then
            let cycles := match update_rate with
              | some rate => 30 * 60 / rate
              | none => 0
            let msg := if cycles = 0 then "The server is down"
              else "The server is down, suspending"
            { service := { s with suspended := .cycles cycles }
              outcome := .err (.dynDns s.name msg)
              contacted := true }
          else
            { service := { s with suspended := .indefinite }
              outcome := .err (.dynDns s.name (mapKnownResponse resp))
              contacted := true }

/-- `update_record` applied `k` times in a row with the same inputs
(successive polling cycles all finding the same dirty addresses). -/
def iterateCalls (update_rate : Option Nat) (ips : List IpAddr)
    (call : CallOutcome) : Nat → DynService → DynService
  | 0, s => s
  | k + 1, s =>
    iterateCalls update_rate ips call k (Service.update_record s update_rate ips call).service

/-! ### Orchestrator: one iteration of the main loop (src/main.rs 169-254)

Logical IP names (`Box<str>` map keys) are modelled as UTF-8 byte
sequences, matching the persistence model.  The `ips` HashMap is its
iteration sequence; `services` carries, per DDNS entry, the dependency IP
names from `service_ips`.  Resolution outcomes and provider-call outcomes
are supplied as functions, since they come from effectful collaborators. -/

/-- `&ips[name]` (HashMap indexing; startup validation guarantees the name
exists, the default is never reached on validated configurations). -/
def findIp (ips : List (List Nat × DynamicIp)) (name : List Nat) : DynamicIp :=
  ((ips.find? fun p => decide (p.1 = name)).map Prod.snd).getD
    { address := none, dirty := false, service := .execV4 "" }

/-- Phase 1 of a cycle: `ip.update()` on every configured IP, an error
leaving that IP untouched (it is only logged). -/
def refreshAll (ips : List (List Nat × DynamicIp))
    (resolve : List Nat → Except DynamicIpError IpAddr) :
    List (List Nat × DynamicIp) :=
  ips.map fun p => (p.1, (p.2.update (resolve p.1)).1)

/-- Whether any dependency IP of a service is dirty. -/
def serviceIsDirty (ips : List (List Nat × DynamicIp))
    (deps : List (List Nat)) : Bool :=
  deps.any fun n => (findIp ips n).is_dirty

/-- The address slice gathered for a dirty service: the addresses of its
dependency IPs that are currently resolved (unresolved ones are omitted). -/
def gatherIps (ips : List (List Nat × DynamicIp))
    (deps : List (List Nat)) : List IpAddr :=
  deps.filterMap fun n => (findIp ips n).address

/-- The observable outcome of one main-loop iteration. -/
structure CycleResult where
  /-- the IP map after the refresh phase -/
  ips : List (List Nat × DynamicIp)
  /-- the services on which `update_record` was invoked, with the address
  slice passed to each -/
  calls : List (List Nat × List IpAddr)
  /-- the per-call provider outcomes (they are only logged) -/
  callResults : List (List Nat × Except DdnsUpdateError (List IpAddr))
  /-- the `is_ip_updated` flag after the service loop -/
  is_ip_updated : Bool
  /-- `some st` when the persistent state was rebuilt as `st` and a write
  was attempted, `none` when the file was left untouched -/
  written : Option PersistentState

/-- One iteration of the main loop: refresh every IP; for each service
take the dirty-dependency test into `is_ip_updated` and invoke the
provider exactly when it holds; if any service saw a dirty dependency,
rebuild the persistent state from the current address map (fresh
timestamp `now`, the startup `config_hash`) and attempt to write it —
provider-call outcomes do not influence that decision. -/
def cycle (ips : List (List Nat × DynamicIp))
    (resolve : List Nat → Except DynamicIpError IpAddr)
    (services : List (List Nat × List (List Nat)))
    (results : List Nat → List IpAddr → Except DdnsUpdateError (List IpAddr))
    (config_hash now : Nat) : CycleResult :=
  let ips2 := refreshAll ips resolve
  let called := (services.filter fun sv => serviceIsDirty ips2 sv.2).map
    fun sv => (sv.1, gatherIps ips2 sv.2)
  let is_ip_updated := services.any fun sv => serviceIsDirty ips2 sv.2
  { ips := ips2
    calls := called
    callResults := called.map fun c => (c.1, results c.1 c.2)
    is_ip_updated := is_ip_updated
    written :=
      if is_ip_updated then
        some { version := STATE_VERSION
               update_timestamp := now
               config_hash := config_hash
               ip_addresses := ips2.filterMap fun p =>
                 p.2.address.map fun a => (p.1, a) }
      else none }

/-- The DynamicIp state invariant behind claim C9: a dirty IP always has a
cached address. -/
def DynamicIp.Inv (d : DynamicIp) : Prop :=
  d.dirty = true → d.address.isSome = true

/-! ## Theorems -/

/-! ### Helper lemmas -/

theorem natToLE_length (k n : Nat) : (natToLE k n).length = k := by
  induction k generalizing n with
  | zero => rfl
  | succ k ih => simp [natToLE, ih]

theorem leToNat_natToLE (k n : Nat) : leToNat (natToLE k n) = n % 256 ^ k := by
  induction k generalizing n with
  | zero => simp [natToLE, leToNat, Nat.mod_one]
  | succ k ih =>
    have h : (256 : Nat) ^ (k + 1) = 256 * 256 ^ k := by ring
    simp only [natToLE, leToNat, ih, h, Nat.mod_mul]

theorem leToNat_natToLE_of_lt (k n : Nat) (h : n < 256 ^ k) :
    leToNat (natToLE k n) = n := by
  rw [leToNat_natToLE, Nat.mod_eq_of_lt h]

theorem readField_exact (xs ys : List Nat) (f : String) (n : Nat)
    (h : xs.length = n) : readField (xs ++ ys) f n = .ok (xs, ys) := by
  subst h
  simp [readField, List.take_left, List.drop_left]

theorem readField_short (input : List Nat) (f : String) (n : Nat)
    (h : input.length < n) : readField input f n = .error (.unexpectedEof f) := by
  unfold readField
  rw [if_neg]
  simp only [List.length_take]
  omega

/-! ### C1: DynamicIp refresh semantics -/

/-- C1: `DynamicIp::update` with a successful resolution caches the new
address and sets the dirty bit exactly when there was no prior cached
address or the prior address differs (dirty is cleared when it is
identical); a failed resolution leaves the whole state untouched and
returns the error. -/
theorem dynamicIp_update_correct (d : DynamicIp) (a : IpAddr)
    (e : DynamicIpError) :
    (d.update (.error e) = (d, some e)) ∧
    ((d.update (.ok a)).1.address = some a) ∧
    ((d.update (.ok a)).2 = none) ∧
    (d.address = none → (d.update (.ok a)).1.dirty = true) ∧
    (∀ b, d.address = some b → b ≠ a → (d.update (.ok a)).1.dirty = true) ∧
    (d.address = some a → (d.update (.ok a)).1.dirty = false) := by
  refine ⟨rfl, rfl, rfl, ?_, ?_, ?_⟩
  · intro h
    simp [DynamicIp.update, h]
  · intro b hb hne
    simp [DynamicIp.update, hb, hne]
  · intro h
    simp [DynamicIp.update, h]

/-- Witness for C1 at a concrete state and address. -/
theorem dynamicIp_update_correct_witness :
    (({ address := some (.v4 ⟨1, by norm_num⟩), dirty := false,
        service := .execV4 "ip" } : DynamicIp).update
      (.ok (.v4 ⟨2, by norm_num⟩))).1.dirty = true := by
  exact (dynamicIp_update_correct
    { address := some (.v4 ⟨1, by norm_num⟩), dirty := false,
      service := .execV4 "ip" }
    (.v4 ⟨2, by norm_num⟩) .interfaceFailure).2.2.2.2.1
    (.v4 ⟨1, by norm_num⟩) rfl (by decide)

/-! ### C4: initial dirty state of a freshly constructed DynamicIp -/

/-- C4 counterexample: it is false that every `DynamicIp` accepted by
`DynamicIp::from_config` starts with `is_dirty() = true`; the constructor
explicitly clears the dirty bit (src/ip/mod.rs line 158), shown here on a
concrete exec-method configuration. -/
theorem dynamicIp_from_config_not_dirty :
    ¬ (∀ (c : IpConfig) (d : DynamicIp),
        DynamicIp.from_config c = .ok d → d.is_dirty = true) := by
  intro hclaim
  have h := hclaim { version := .v4, method := .exec "curl ifconfig.me" }
    { address := none, dirty := false, service := .execV4 "curl ifconfig.me" }
    (by decide)
  simp [DynamicIp.is_dirty] at h

/-- C4 (amended): every `DynamicIp` accepted by `DynamicIp::from_config`
starts clean — `is_dirty() = false` and no cached address — and the first
successful refresh necessarily sets `dirty = true` (there is no prior
address to compare equal), after which the dirty bit is governed by
address comparison; at least one synchronization attempt is therefore
still guaranteed after the first successful resolution. -/
theorem dynamicIp_from_config_clean (c : IpConfig) (d : DynamicIp)
    (h : DynamicIp.from_config c = .ok d) :
    d.is_dirty = false ∧ d.address = none ∧
      ∀ a, ((d.update (.ok a)).1).is_dirty = true := by
  unfold DynamicIp.from_config at h
  cases hs : IpService.from_config c with
  | ok s =>
    rw [hs] at h
    simp only [Except.map] at h
    cases h
    refine ⟨rfl, rfl, ?_⟩
    intro a
    simp [DynamicIp.update, DynamicIp.is_dirty]
  | error e =>
    rw [hs] at h
    simp [Except.map] at h

/-- Witness for C4's amended theorem on a concrete configuration. -/
theorem dynamicIp_from_config_clean_witness :
    (({ address := none, dirty := false,
        service := .execV4 "curl ifconfig.me" } : DynamicIp).is_dirty = false) := by
  exact (dynamicIp_from_config_clean
    { version := .v4, method := .exec "curl ifconfig.me" }
    { address := none, dirty := false, service := .execV4 "curl ifconfig.me" }
    (by decide)).1

/-! ### Persistence helper lemmas -/

theorem foldl_writeEntryStep (es : List (List Nat × IpAddr)) :
    ∀ buf : List Nat, es.foldl writeEntryStep buf = buf ++ encodeEntries es := by
  induction es with
  | nil => intro buf; simp [encodeEntries]
  | cons e es ih =>
    intro buf
    obtain ⟨name, ip⟩ := e
    cases ip with
    | v4 a =>
      simp [List.foldl_cons, ih, writeEntryStep, encodeEntries, encodeEntry,
        List.append_assoc]
    | v6 a =>
      simp [List.foldl_cons, ih, writeEntryStep, encodeEntries, encodeEntry,
        List.append_assoc]

theorem write_to_eq (s : PersistentState) :
    s.write_to = magicBytes ++ natToLE 4 s.version ++
      natToLE 8 s.update_timestamp ++ natToLE 8 s.config_hash ++
      encodeEntries s.ip_addresses := by
  simp [PersistentState.write_to, foldl_writeEntryStep, List.append_assoc]

theorem encodeEntries_length (es : List (List Nat × IpAddr)) :
    es.length ≤ (encodeEntries es).length := by
  induction es with
  | nil => simp [encodeEntries]
  | cons e es ih =>
    obtain ⟨name, ip⟩ := e
    cases ip with
    | v4 a => simp [encodeEntries, encodeEntry, natToLE_length]; omega
    | v6 a => simp [encodeEntries, encodeEntry, natToLE_length]; omega

theorem decodeEntries_encodeEntries (es : List (List Nat × IpAddr))
    (hwf : ∀ e ∈ es, EntryWf e) :
    ∀ fuel, es.length < fuel →
      decodeEntries fuel (encodeEntries es) = .ok es := by
  induction es with
  | nil =>
    intro fuel hf
    cases fuel with
    | zero => omega
    | succ f =>
      have h : readField (encodeEntries []) "name length" 4 =
          .error (.unexpectedEof "name length") := by
        apply readField_short
        simp [encodeEntries]
      simp [decodeEntries, h]
  | cons e es ih =>
    intro fuel hf
    obtain ⟨name, ip⟩ := e
    obtain ⟨hne, hlen, hbytes, hutf⟩ := hwf _ (List.mem_cons_self _ _)
    have hwf2 : ∀ e ∈ es, EntryWf e := fun e he => hwf e (List.mem_cons_of_mem _ he)
    cases fuel with
    | zero => omega
    | succ f =>
      have hf2 : es.length < f := by simp at hf; omega
      have hlen0 : name.length ≠ 0 := by
        intro h0
        exact hne (List.eq_nil_of_length_eq_zero h0)
      have hlenv : leToNat (natToLE 4 name.length) = name.length := by
        apply leToNat_natToLE_of_lt
        norm_num
        exact hlen
      cases ip with
      | v4 a =>
        have harr : encodeEntries ((name, IpAddr.v4 a) :: es) =
            natToLE 4 name.length ++
              (name ++ ([0] ++ (natToLE 4 a.val ++ encodeEntries es))) := by
          simp [encodeEntries, encodeEntry, List.append_assoc]
        rw [harr]
        have hval : leToNat (natToLE 4 a.val) % 2 ^ 32 = a.val := by
          rw [leToNat_natToLE_of_lt]
          · exact Nat.mod_eq_of_lt a.isLt
          · have := a.isLt; norm_num at *; omega
        simp only [decodeEntries,
          readField_exact _ _ _ _ (natToLE_length 4 name.length), hlenv,
          if_neg hlen0,
          readField_exact name _ "version" name.length rfl,
          hutf, if_true,
          readField_exact [(0 : Nat)] _ "IP type" 1 rfl,
          List.headD,
          readField_exact _ _ "IPv4 address" _ (natToLE_length 4 a.val),
          ih hwf2 f hf2, hval]
      | v6 a =>
        have harr : encodeEntries ((name, IpAddr.v6 a) :: es) =
            natToLE 4 name.length ++
              (name ++ ([1] ++ (natToLE 16 a.val ++ encodeEntries es))) := by
          simp [encodeEntries, encodeEntry, List.append_assoc]
        rw [harr]
        have hval : leToNat (natToLE 16 a.val) % 2 ^ 128 = a.val := by
          rw [leToNat_natToLE_of_lt]
          · exact Nat.mod_eq_of_lt a.isLt
          · have := a.isLt; norm_num at *; omega
        simp only [decodeEntries,
          readField_exact _ _ _ _ (natToLE_length 4 name.length), hlenv,
          if_neg hlen0,
          readField_exact name _ "version" name.length rfl,
          hutf, if_true,
          readField_exact [(1 : Nat)] _ "IP type" 1 rfl,
          List.headD,
          readField_exact _ _ "IPv6 address" _ (natToLE_length 16 a.val),
          ih hwf2 f hf2, hval]
        simp

theorem from_reader_encoded (v ts h : Nat) (es : List (List Nat × IpAddr))
    (hv32 : v < 2 ^ 32) (hv : v ≤ STATE_VERSION) (hts : ts < 2 ^ 64)
    (hh : h < 2 ^ 64) (hwf : ∀ e ∈ es, EntryWf e) :
    PersistentState.from_reader
        (magicBytes ++ natToLE 4 v ++ natToLE 8 ts ++ natToLE 8 h ++
          encodeEntries es) =
      .ok ⟨v, ts, h, es⟩ := by
  have h256v : v < 256 ^ 4 := by norm_num; exact hv32
  have h256ts : ts < 256 ^ 8 := by norm_num; exact hts
  have h256h : h < 256 ^ 8 := by norm_num; exact hh
  have harr : magicBytes ++ natToLE 4 v ++ natToLE 8 ts ++ natToLE 8 h ++
      encodeEntries es =
      magicBytes ++ (natToLE 4 v ++ (natToLE 8 ts ++ (natToLE 8 h ++
        encodeEntries es))) := by
    simp [List.append_assoc]
  rw [harr]
  unfold PersistentState.from_reader
  simp only [readField_exact magicBytes _ "magic" 8 rfl,
    ne_eq, not_true_eq_false, if_false, ite_false,
    readField_exact _ _ "version" _ (natToLE_length 4 v),
    leToNat_natToLE_of_lt 4 v h256v,
    if_neg (show ¬ v > STATE_VERSION by omega),
    readField_exact _ _ "update timestamp" _ (natToLE_length 8 ts),
    readField_exact _ _ "config hash" _ (natToLE_length 8 h),
    leToNat_natToLE_of_lt 8 ts h256ts, leToNat_natToLE_of_lt 8 h h256h,
    decodeEntries_encodeEntries es hwf _
      (Nat.lt_succ_of_le (encodeEntries_length es))]

/-! ### C5: persistent-state round trip -/

/-- C5 counterexample: the round trip is not the identity on every
`PersistentState` of the current format version.  A state holding an entry
with an empty logical name encodes that entry with a zero name-length
field, which the decoder takes as the end-of-entries marker: decoding
returns a state whose address map is empty, not the original. -/
theorem persistentState_roundtrip_counterexample :
    PersistentState.from_reader
        (PersistentState.write_to
          { version := 1, update_timestamp := 0, config_hash := 0,
            ip_addresses := [([], .v4 ⟨0, by norm_num⟩)] }) ≠
      .ok { version := 1, update_timestamp := 0, config_hash := 0,
            ip_addresses := [([], .v4 ⟨0, by norm_num⟩)] } := by
  decide

/-- C5 (amended): for every well-formed `PersistentState` of the current
format version whose logical names are non-empty (and shorter than 2^32
bytes, so the `as u32` cast is lossless), encoding with `write_to` and
decoding with `from_reader` yields an identical structure — version,
timestamp, fingerprint and the full name→address map, IPv4 and IPv6
entries and non-ASCII names included. -/
theorem persistentState_roundtrip (s : PersistentState) (hwf : s.Wf)
    (hv : s.version = STATE_VERSION) :
    PersistentState.from_reader s.write_to = .ok s := by
  obtain ⟨hv32, hts, hh, hes⟩ := hwf
  cases s with
  | mk v ts h es =>
    rw [write_to_eq]
    simp only at hv32 hts hh hes hv ⊢
    exact from_reader_encoded v ts h es hv32 (le_of_eq hv) hts hh hes

/-- Witness for C5 on a state holding an IPv4 entry under the non-ASCII
name "你好" and an IPv6 entry under the name "ip6". -/
theorem persistentState_roundtrip_witness :
    PersistentState.from_reader
        (PersistentState.write_to
          { version := 1, update_timestamp := 1700000000,
            config_hash := 81985529216486895,
            ip_addresses :=
              [([0xE4, 0xBD, 0xA0, 0xE5, 0xA5, 0xBD], .v4 ⟨3232261320, by norm_num⟩),
               ([0x69, 0x70, 0x36], .v6 ⟨42540766411282592856903984951653826561, by norm_num⟩)] }) =
      .ok { version := 1, update_timestamp := 1700000000,
            config_hash := 81985529216486895,
            ip_addresses :=
              [([0xE4, 0xBD, 0xA0, 0xE5, 0xA5, 0xBD], .v4 ⟨3232261320, by norm_num⟩),
               ([0x69, 0x70, 0x36], .v6 ⟨42540766411282592856903984951653826561, by norm_num⟩)] } := by
  exact persistentState_roundtrip _
    (by refine ⟨by norm_num, by norm_num, by norm_num, ?_⟩; decide) rfl

/-! ### C6: binary layout written by write_to -/

/-- C6 counterexample: the byte stream produced by `write_to` does not
carry the zero-length-name terminator the claim requires; on a concrete
one-entry state the stream differs from the claimed layout (which appends
a 4-byte zero name-length field after the last entry). -/
theorem write_to_layout_counterexample :
    PersistentState.write_to
        { version := 1, update_timestamp := 2, config_hash := 3,
          ip_addresses := [([0x61], .v4 ⟨16909060, by norm_num⟩)] } ≠
      specWordedLayout
        { version := 1, update_timestamp := 2, config_hash := 3,
          ip_addresses := [([0x61], .v4 ⟨16909060, by norm_num⟩)] } := by
  decide

/-- C6 (amended): for every `PersistentState`, `write_to` produces exactly
the little-endian layout 8-byte magic, 4-byte format version, 8-byte
timestamp, 8-byte configuration fingerprint, followed by the entry
sequence (`nameLen:u32le, name, addressType:u8, address`) — with NO
zero-length-name terminator: the stream simply ends after the last entry,
and therefore never equals the terminator-carrying layout the claim
describes. -/
theorem write_to_layout (s : PersistentState) :
    s.write_to = magicBytes ++ natToLE 4 s.version ++
        natToLE 8 s.update_timestamp ++ natToLE 8 s.config_hash ++
        encodeEntries s.ip_addresses ∧
      s.write_to ≠ specWordedLayout s := by
  refine ⟨write_to_eq s, ?_⟩
  intro heq
  have hlen := congrArg List.length heq
  rw [write_to_eq] at hlen
  simp [specWordedLayout] at hlen

/-! ### C10: from_reader accepts streams without a terminator -/

/-- C10: `from_reader` accepts a byte stream with no zero-length-name
terminator — an input ending exactly after the 28-byte header (the
empty entry list) or exactly after any sequence of complete entries
decodes to `Ok` with the entries read so far; and an end-of-input in the
middle of a field (here: a name-length field announcing one byte, then
EOF) is an `UnexpectedEof` error instead. -/
theorem from_reader_no_terminator (v ts h : Nat)
    (es : List (List Nat × IpAddr)) (hv32 : v < 2 ^ 32)
    (hv : v ≤ STATE_VERSION) (hts : ts < 2 ^ 64) (hh : h < 2 ^ 64)
    (hwf : ∀ e ∈ es, EntryWf e) :
    PersistentState.from_reader
        (magicBytes ++ natToLE 4 v ++ natToLE 8 ts ++ natToLE 8 h ++
          encodeEntries es) = .ok ⟨v, ts, h, es⟩ ∧
      PersistentState.from_reader
        (magicBytes ++ natToLE 4 v ++ natToLE 8 ts ++ natToLE 8 h ++
          [1, 0, 0, 0]) = .error (.unexpectedEof "version") := by
  refine ⟨from_reader_encoded v ts h es hv32 hv hts hh hwf, ?_⟩
  have h256v : v < 256 ^ 4 := by norm_num; exact hv32
  have harr : magicBytes ++ natToLE 4 v ++ natToLE 8 ts ++ natToLE 8 h ++
      ([1, 0, 0, 0] : List Nat) =
      magicBytes ++ (natToLE 4 v ++ (natToLE 8 ts ++ (natToLE 8 h ++
        [1, 0, 0, 0]))) := by
    simp [List.append_assoc]
  rw [harr]
  unfold PersistentState.from_reader
  simp only [readField_exact magicBytes _ "magic" 8 rfl,
    ne_eq, not_true_eq_false, if_false, ite_false,
    readField_exact _ _ "version" _ (natToLE_length 4 v),
    leToNat_natToLE_of_lt 4 v h256v,
    if_neg (show ¬ v > STATE_VERSION by omega),
    readField_exact _ _ "update timestamp" _ (natToLE_length 8 ts),
    readField_exact _ _ "config hash" _ (natToLE_length 8 h)]
  have hdec : decodeEntries (([1, 0, 0, 0] : List Nat).length + 1) [1, 0, 0, 0] =
      .error (.unexpectedEof "version") := by decide
  simp only [hdec]

/-- Witness for C10 at a concrete header and one complete IPv4 entry. -/
theorem from_reader_no_terminator_witness :
    PersistentState.from_reader
        (magicBytes ++ natToLE 4 1 ++ natToLE 8 11 ++ natToLE 8 22 ++
          encodeEntries [([0x61], .v4 ⟨7, by norm_num⟩)]) =
      .ok ⟨1, 11, 22, [([0x61], .v4 ⟨7, by norm_num⟩)]⟩ := by
  exact (from_reader_no_terminator 1 11 22 [([0x61], .v4 ⟨7, by norm_num⟩)]
    (by norm_num) (by decide) (by norm_num) (by norm_num) (by decide)).1

/-! ### C8: netmask string parsing error classification -/

/-- C8 counterexample: for `"10.0.0.0/256"` the right side exceeds `u8`
range, so the decimal-prefix attempt fails to parse at all and the parser
falls through to the mask-address attempt, yielding `InvalidMask` — not
the `MaskTooLarge` the claim requires for decimal values above 255. -/
theorem netmask_slash256_counterexample :
    NetworkV4.from_str "10.0.0.0/256".toList = .error .invalidMask ∧
      NetworkV4.from_str "10.0.0.0/256".toList ≠ .error .maskTooLarge := by
  decide

/-- C8 (amended): for both address families, the parser returns
`MaskUnspecified` exactly when the input has no `/`; `InvalidAddress`
when the left side does not parse as an address of the family;
`MaskTooLarge` when the right side parses as a `u8` decimal (value at
most 255, an optional leading `+`) exceeding the family width (32 / 128);
and `InvalidMask` when the right side parses neither as a `u8` decimal
nor as a mask address of the family — in particular a decimal right side
above 255, such as `"10.0.0.0/256"`, fails the `u8` parse and yields
`InvalidMask`, not `MaskTooLarge`. -/
theorem netmask_from_str_classes (s : List Char) :
    (NetworkV4.from_str s = .error .maskUnspecified ↔
      splitAtFirstSlash s = none) ∧
    (NetworkV6.from_str s = .error .maskUnspecified ↔
      splitAtFirstSlash s = none) ∧
    (∀ l r, splitAtFirstSlash s = some (l, r) →
      (parseIpv4 l = none → NetworkV4.from_str s = .error .invalidAddress) ∧
      (parseIpv6 l = none → NetworkV6.from_str s = .error .invalidAddress) ∧
      (∀ a p, parseIpv4 l = some a → parseU8 r = some p → 32 < p →
        NetworkV4.from_str s = .error .maskTooLarge) ∧
      (∀ a p, parseIpv6 l = some a → parseU8 r = some p → 128 < p →
        NetworkV6.from_str s = .error .maskTooLarge) ∧
      (∀ a, parseIpv4 l = some a → parseU8 r = none → parseIpv4 r = none →
        NetworkV4.from_str s = .error .invalidMask) ∧
      (∀ a, parseIpv6 l = some a → parseU8 r = none → parseIpv6 r = none →
        NetworkV6.from_str s = .error .invalidMask)) := by
  refine ⟨?_, ?_, ?_⟩
  · unfold NetworkV4.from_str
    cases hsp : splitAtFirstSlash s with
    | none => simp
    | some lr =>
      obtain ⟨l, r⟩ := lr
      simp only
      constructor
      · intro h
        cases hpa : parseIpv4 l with
        | none => simp [hpa] at h
        | some a =>
          cases hpu : parseU8 r with
          | some p =>
            by_cases hp : p ≤ 32 <;> simp [hpa, hpu, hp] at h
          | none =>
            cases hpm : parseIpv4 r with
            | some m => simp [hpa, hpu, hpm] at h
            | none => simp [hpa, hpu, hpm] at h
      · intro h
        cases h
  · unfold NetworkV6.from_str
    cases hsp : splitAtFirstSlash s with
    | none => simp
    | some lr =>
      obtain ⟨l, r⟩ := lr
      simp only
      constructor
      · intro h
        cases hpa : parseIpv6 l with
        | none => simp [hpa] at h
        | some a =>
          cases hpu : parseU8 r with
          | some p =>
            by_cases hp : p ≤ 128 <;> simp [hpa, hpu, hp] at h
          | none =>
            cases hpm : parseIpv6 r with
            | some m => simp [hpa, hpu, hpm] at h
            | none => simp [hpa, hpu, hpm] at h
      · intro h
        cases h
  · intro l r hsp
    refine ⟨?_, ?_, ?_, ?_, ?_, ?_⟩
    · intro hpa
      simp [NetworkV4.from_str, hsp, hpa]
    · intro hpa
      simp [NetworkV6.from_str, hsp, hpa]
    · intro a p hpa hpu hp
      simp [NetworkV4.from_str, hsp, hpa, hpu, show ¬ p ≤ 32 by omega]
    · intro a p hpa hpu hp
      simp [NetworkV6.from_str, hsp, hpa, hpu, show ¬ p ≤ 128 by omega]
    · intro a hpa hpu hpm
      simp [NetworkV4.from_str, hsp, hpa, hpu, hpm]
    · intro a hpa hpu hpm
      simp [NetworkV6.from_str, hsp, hpa, hpu, hpm]

/-- Witness for C8: each error class exercised at a concrete input
(`"10.0.0.0"` without a slash; a bad left side; an in-range-decimal
prefix above 32; a right side that is neither decimal nor address). -/
theorem netmask_from_str_classes_witness :
    NetworkV4.from_str "10.0.0.0".toList = .error .maskUnspecified ∧
      NetworkV4.from_str "10.0.0.300/8".toList = .error .invalidAddress ∧
      NetworkV4.from_str "10.0.0.0/33".toList = .error .maskTooLarge ∧
      NetworkV4.from_str "10.0.0.0/abc".toList = .error .invalidMask := by
  refine ⟨?_, ?_, ?_, ?_⟩
  · exact (netmask_from_str_classes "10.0.0.0".toList).1.mpr (by decide)
  · exact ((netmask_from_str_classes "10.0.0.300/8".toList).2.2
      "10.0.0.300".toList "8".toList (by decide)).1 (by decide)
  · exact (((netmask_from_str_classes "10.0.0.0/33".toList).2.2
      "10.0.0.0".toList "33".toList (by decide)).2.2.1
      ⟨0x0A000000, by norm_num⟩ 33 (by decide) (by decide) (by norm_num))
  · exact (((netmask_from_str_classes "10.0.0.0/abc".toList).2.2
      "10.0.0.0".toList "abc".toList (by decide)).2.2.2.2.1
      ⟨0x0A000000, by norm_num⟩ (by decide) (by decide) (by decide))

/-! ### Engine helper lemmas -/

theorem update_record_cycles_pos (svc : DynService) (rate : Option Nat)
    (ips : List IpAddr) (call : CallOutcome) (n : Nat)
    (h : svc.suspended = .cycles (n + 1)) :
    Service.update_record svc rate ips call =
      { service := { svc with suspended := .cycles n }
        outcome := .err (.suspended (.cycles n))
        contacted := false } := by
  unfold Service.update_record
  rw [h]

theorem update_record_indefinite (svc : DynService) (rate : Option Nat)
    (ips : List IpAddr) (call : CallOutcome)
    (h : svc.suspended = .indefinite) :
    Service.update_record svc rate ips call =
      { service := svc, outcome := .err (.suspended .indefinite)
        contacted := false } := by
  unfold Service.update_record
  rw [h]

theorem update_record_contacts (svc : DynService) (rate : Option Nat)
    (ips : List IpAddr) (call : CallOutcome)
    (h0 : svc.suspended = .cycles 0)
    (hfind : ips.find? IpAddr.isV4 ≠ none ∨ ips.find? IpAddr.isV6 ≠ none) :
    (Service.update_record svc rate ips call).contacted = true := by
  unfold Service.update_record
  rw [h0]
  simp only
  rw [if_neg (by rcases hfind with h | h <;> intro hc <;> [exact h hc.1; exact h hc.2])]
  cases call with
  | transport m => rfl
  | response b =>
    cases b with
    | error m => rfl
    | ok body =>
      simp only
      cases hs : stripFront "good".toList body.toList with
      | some rest => rfl
      | none =>
        simp only
        split
        · rfl
        · split <;> rfl

theorem iterateCalls_cycles (rate : Option Nat) (ips : List IpAddr)
    (call : CallOutcome) :
    ∀ (k m : Nat) (svc : DynService), svc.suspended = .cycles m → k ≤ m →
      (iterateCalls rate ips call k svc).suspended = .cycles (m - k) := by
  intro k
  induction k with
  | zero =>
    intro m svc h _
    simpa [iterateCalls] using h
  | succ k ih =>
    intro m svc h hk
    cases m with
    | zero => omega
    | succ m =>
      have hstep := update_record_cycles_pos svc rate ips call m h
      simp only [iterateCalls, hstep]
      have := ih m { svc with suspended := .cycles m } rfl (by omega)
      simpa [Nat.succ_sub_succ] using this

/-! ### C3: shared backoff-engine suspension state machine -/

/-- C3: the shared engine's suspension state machine.  A `Cycles(n+1)`
state is decremented and `Suspended` is returned without a network
request; `Indefinite` always returns `Suspended` without a request; a
`"911"` or `"dnserr"` response moves the state to
`Cycles(1800 / polling interval)` (`Cycles(0)` when polling is disabled);
any other unrecognized response moves it to `Indefinite`.  In particular,
with a 60-second interval a `"911"` response yields `Cycles(30)`, the
next 30 calls return `Suspended` (decrementing, never contacting the
network), and the 31st call attempts the network again. -/
theorem backoff_engine_spec (svc : DynService) (rate : Option Nat)
    (ips : List IpAddr) (call : CallOutcome) :
    (∀ n, svc.suspended = .cycles (n + 1) →
      Service.update_record svc rate ips call =
        { service := { svc with suspended := .cycles n }
          outcome := .err (.suspended (.cycles n))
          contacted := false }) ∧
    (svc.suspended = .indefinite →
      Service.update_record svc rate ips call =
        { service := svc, outcome := .err (.suspended .indefinite)
          contacted := false }) ∧
    (svc.suspended = .cycles 0 →
      (ips.find? IpAddr.isV4 ≠ none ∨ ips.find? IpAddr.isV6 ≠ none) →
      ∀ body : String,
        stripFront "good".toList body.toList = none →
        startsWithLit "nochg" body.toList = false →
        ((startsWithLit "911" body.toList || startsWithLit "dnserr" body.toList) = true →
          (Service.update_record svc rate ips (.response (.ok body))).service.suspended =
            .cycles (match rate with | some r => 1800 / r | none => 0)) ∧
        (startsWithLit "911" body.toList = false →
          startsWithLit "dnserr" body.toList = false →
          (Service.update_record svc rate ips (.response (.ok body))).service.suspended =
            .indefinite)) ∧
    (rate = some 60 → svc.suspended = .cycles 0 →
      (ips.find? IpAddr.isV4 ≠ none ∨ ips.find? IpAddr.isV6 ≠ none) →
      (Service.update_record svc rate ips (.response (.ok "911"))).service.suspended =
        .cycles 30) ∧
    (∀ s2 : DynService, s2.suspended = .cycles 30 →
      (∀ k, k < 30 →
        (Service.update_record (iterateCalls rate ips call k s2) rate ips call).contacted
            = false ∧
          (Service.update_record (iterateCalls rate ips call k s2) rate ips call).outcome
            = .err (.suspended (.cycles (29 - k)))) ∧
      ((ips.find? IpAddr.isV4 ≠ none ∨ ips.find? IpAddr.isV6 ≠ none) →
        (Service.update_record (iterateCalls rate ips call 30 s2) rate ips call).contacted
          = true)) := by
  refine ⟨?_, ?_, ?_, ?_, ?_⟩
  · intro n h
    exact update_record_cycles_pos svc rate ips call n h
  · intro h
    exact update_record_indefinite svc rate ips call h
  · intro h0 hfind body hgood hnochg
    have hif : ¬ (ips.find? IpAddr.isV4 = none ∧ ips.find? IpAddr.isV6 = none) := by
      rcases hfind with h | h <;> intro hc
      · exact h hc.1
      · exact h hc.2
    constructor
    · intro h911
      unfold Service.update_record
      rw [h0]
      simp only
      rw [if_neg hif]
      simp only [hgood, hnochg, h911, if_false, if_true]
      cases rate <;> simp [Suspension.cycles.injEq]
    · intro h911 hdnserr
      unfold Service.update_record
      rw [h0]
      simp only
      rw [if_neg hif]
      simp only [hgood, hnochg, h911, hdnserr, if_false, Bool.or_self]
      simp
  · intro hrate h0 hfind
    subst hrate
    have hif : ¬ (ips.find? IpAddr.isV4 = none ∧ ips.find? IpAddr.isV6 = none) := by
      rcases hfind with h | h <;> intro hc
      · exact h hc.1
      · exact h hc.2
    unfold Service.update_record
    rw [h0]
    simp only
    rw [if_neg hif]
    simp only [show stripFront "good".toList "911".toList = none from rfl,
      show startsWithLit "nochg" "911".toList = false from rfl,
      show startsWithLit "911" "911".toList = true from rfl]
    simp
  · intro s2 h30
    constructor
    · intro k hk
      have hiter := iterateCalls_cycles rate ips call k 30 s2 h30 (by omega)
      have h29 : 30 - k = (29 - k) + 1 := by omega
      rw [h29] at hiter
      rw [update_record_cycles_pos _ rate ips call _ hiter]
      exact ⟨rfl, rfl⟩
    · intro hfind
      have hiter := iterateCalls_cycles rate ips call 30 30 s2 h30 (by omega)
      simp only [Nat.sub_self] at hiter
      exact update_record_contacts _ rate ips call hiter hfind

/-- Witness for C3 at a concrete service, a 60-second interval, one
submitted IPv4 address and a `"911"` response body. -/
theorem backoff_engine_spec_witness :
    (Service.update_record
        { name := "noip", server := "srv", suspended := .cycles 0 }
        (some 60) [.v4 ⟨1, by norm_num⟩]
        (.response (.ok "911"))).service.suspended = .cycles 30 ∧
      (Service.update_record
        { name := "noip", server := "srv", suspended := .cycles 30 }
        (some 60) [.v4 ⟨1, by norm_num⟩]
        (.response (.ok "911"))).contacted = false := by
  constructor
  · exact (backoff_engine_spec
      { name := "noip", server := "srv", suspended := .cycles 0 }
      (some 60) [.v4 ⟨1, by norm_num⟩]
      (.response (.ok "911"))).2.2.2.1 rfl rfl (by left; decide)
  · exact ((backoff_engine_spec
      { name := "noip", server := "srv", suspended := .cycles 30 }
      (some 60) [.v4 ⟨1, by norm_num⟩]
      (.response (.ok "911"))).2.2.2.2
      { name := "noip", server := "srv", suspended := .cycles 30 } rfl).1 0
      (by norm_num) |>.1

/-! ### C7: what a successful engine result contains -/

theorem pushPair_length (o1 o2 : Option IpAddr) :
    (pushPair o1 o2).length ≤ 2 := by
  cases o1 <;> cases o2 <;> simp [pushPair, fixedPush]

/-- C7 counterexample: the claim fails on a `"good"` response listing
addresses that were not submitted.  Submitting the single IPv4 address
192.0.2.1 and receiving `"good 198.51.100.7,203.0.113.9"`, the engine
returns exactly those two server-listed addresses: the result is not a
subset of the submitted slice and contains two IPv4 addresses. -/
theorem engine_confirmed_subset_counterexample :
    (Service.update_record
        { name := "noip", server := "srv", suspended := .cycles 0 }
        (some 60) [.v4 ⟨0xC0000201, by norm_num⟩]
        (.response (.ok "good 198.51.100.7,203.0.113.9"))).outcome =
      .ok [.v4 ⟨0xC6336407, by norm_num⟩, .v4 ⟨0xCB007109, by norm_num⟩] ∧
    (.v4 ⟨0xC6336407, by norm_num⟩ : IpAddr) ∉
      [(.v4 ⟨0xC0000201, by norm_num⟩ : IpAddr)] ∧
    (.v4 ⟨0xCB007109, by norm_num⟩ : IpAddr) ∉
      [(.v4 ⟨0xC0000201, by norm_num⟩ : IpAddr)] ∧
    (IpAddr.v4 ⟨0xC6336407, by norm_num⟩).isV4 = true ∧
    (IpAddr.v4 ⟨0xCB007109, by norm_num⟩).isV4 = true := by
  refine ⟨by decide, by decide, by decide, rfl, rfl⟩

/-- C7 (amended): every successful result of the shared engine holds at
most two addresses (the `FixedVec<IpAddr, 2>` capacity); a `"nochg"`
response yields the empty confirmed set; a `"good"` response with no
parseable listed address yields exactly the submitted addresses (the
first IPv4 found, then the first IPv6 found); but a `"good"` response
listing parseable addresses yields those server-reported addresses
verbatim — they need not be a subset of the submitted slice and may
contain two addresses of the same family. -/
theorem engine_result_spec (svc : DynService) (rate : Option Nat)
    (ips : List IpAddr) (call : CallOutcome) :
    (∀ l, (Service.update_record svc rate ips call).outcome = .ok l →
      l.length ≤ 2) ∧
    (svc.suspended = .cycles 0 →
      (ips.find? IpAddr.isV4 ≠ none ∨ ips.find? IpAddr.isV6 ≠ none) →
      ∀ body : String,
        (stripFront "good".toList body.toList = none →
          startsWithLit "nochg" body.toList = true →
          (Service.update_record svc rate ips (.response (.ok body))).outcome =
            .ok []) ∧
        (∀ rest, stripFront "good".toList body.toList = some rest →
          (goodFirst rest = none → goodSecond rest = none →
            (Service.update_record svc rate ips (.response (.ok body))).outcome =
              .ok (pushPair (ips.find? IpAddr.isV4) (ips.find? IpAddr.isV6))) ∧
          (¬ (goodFirst rest = none ∧ goodSecond rest = none) →
            (Service.update_record svc rate ips (.response (.ok body))).outcome =
              .ok (pushPair (goodFirst rest) (goodSecond rest))))) := by
  constructor
  · intro l hl
    cases hs : svc.suspended with
    | indefinite =>
      rw [update_record_indefinite svc rate ips call hs] at hl
      cases hl
    | cycles n =>
      cases n with
      | succ m =>
        rw [update_record_cycles_pos svc rate ips call m hs] at hl
        cases hl
      | zero =>
        unfold Service.update_record at hl
        rw [hs] at hl
        simp only at hl
        by_cases hif : ips.find? IpAddr.isV4 = none ∧ ips.find? IpAddr.isV6 = none
        · rw [if_pos hif] at hl
          cases hl
        · rw [if_neg hif] at hl
          cases call with
          | transport m => cases hl
          | response b =>
            cases b with
            | error m => cases hl
            | ok body =>
              simp only at hl
              cases hstrip : stripFront "good".toList body.toList with
              | some rest =>
                rw [hstrip] at hl
                simp only at hl
                by_cases hnone : goodFirst rest = none ∧ goodSecond rest = none
                · rw [if_pos hnone] at hl
                  cases hl
                  exact pushPair_length _ _
                · rw [if_neg hnone] at hl
                  cases hl
                  exact pushPair_length _ _
              | none =>
                rw [hstrip] at hl
                simp only at hl
                by_cases hnochg : startsWithLit "nochg" body.toList = true
                · rw [if_pos hnochg] at hl
                  cases hl
                  simp
                · rw [if_neg hnochg] at hl
                  by_cases h911 : (startsWithLit "911" body.toList ||
                      startsWithLit "dnserr" body.toList) = true
                  · rw [if_pos h911] at hl
                    cases hl
                  · rw [if_neg h911] at hl
                    cases hl
  · intro h0 hfind body
    have hif : ¬ (ips.find? IpAddr.isV4 = none ∧ ips.find? IpAddr.isV6 = none) := by
      rcases hfind with h | h <;> intro hc
      · exact h hc.1
      · exact h hc.2
    constructor
    · intro hgood hnochg
      unfold Service.update_record
      rw [h0]
      simp only
      rw [if_neg hif]
      simp only [hgood, hnochg, if_true]
    · intro rest hrest
      constructor
      · intro h1 h2
        unfold Service.update_record
        rw [h0]
        simp only
        rw [if_neg hif]
        simp only [hrest, h1, h2, and_self, if_true]
      · intro hne
        unfold Service.update_record
        rw [h0]
        simp only
        rw [if_neg hif]
        simp only [hrest]
        rw [if_neg hne]

/-- Witness for C7 on a `"nochg"` response and on a bare `"good"`
response with one submitted IPv4 address. -/
theorem engine_result_spec_witness :
    (Service.update_record
        { name := "noip", server := "srv", suspended := .cycles 0 }
        (some 60) [.v4 ⟨7, by norm_num⟩] (.response (.ok "nochg"))).outcome =
      .ok [] ∧
    (Service.update_record
        { name := "noip", server := "srv", suspended := .cycles 0 }
        (some 60) [.v4 ⟨7, by norm_num⟩] (.response (.ok "good"))).outcome =
      .ok [.v4 ⟨7, by norm_num⟩] := by
  constructor
  · exact ((engine_result_spec
      { name := "noip", server := "srv", suspended := .cycles 0 }
      (some 60) [.v4 ⟨7, by norm_num⟩]
      (.response (.ok "nochg"))).2 rfl (by left; decide) "nochg").1
      (by decide) (by decide)
  · have h := (((engine_result_spec
      { name := "noip", server := "srv", suspended := .cycles 0 }
      (some 60) [.v4 ⟨7, by norm_num⟩]
      (.response (.ok "good"))).2 rfl (by left; decide) "good").2 []
      (by decide)).1 (by decide) (by decide)
    rw [h]
    decide

/-! ### Orchestrator helper lemmas -/

theorem findIp_not_dirty (ips2 : List (List Nat × DynamicIp))
    (h : ∀ p ∈ ips2, p.2.is_dirty = false) (n : List Nat) :
    (findIp ips2 n).is_dirty = false := by
  unfold findIp
  cases hf : ips2.find? (fun p => decide (p.1 = n)) with
  | none => rfl
  | some p => exact h p (List.mem_of_find?_eq_some hf)

theorem serviceIsDirty_false (ips2 : List (List Nat × DynamicIp))
    (h : ∀ p ∈ ips2, p.2.is_dirty = false) (deps : List (List Nat)) :
    serviceIsDirty ips2 deps = false := by
  unfold serviceIsDirty
  rw [List.any_eq_false]
  intro n _
  simp [findIp_not_dirty ips2 h n]

theorem findIp_inv (ips2 : List (List Nat × DynamicIp))
    (h : ∀ p ∈ ips2, p.2.Inv) (n : List Nat) : (findIp ips2 n).Inv := by
  unfold findIp
  cases hf : ips2.find? (fun p => decide (p.1 = n)) with
  | none =>
    intro hd
    cases hd
  | some p => exact h p (List.mem_of_find?_eq_some hf)

theorem update_preserves_inv (d : DynamicIp)
    (r : Except DynamicIpError IpAddr) (h : d.Inv) : ((d.update r).1).Inv := by
  cases r with
  | error e => exact h
  | ok a =>
    intro _
    simp [DynamicIp.update]

theorem refreshAll_inv (ips : List (List Nat × DynamicIp))
    (resolve : List Nat → Except DynamicIpError IpAddr)
    (h : ∀ p ∈ ips, p.2.Inv) :
    ∀ p ∈ refreshAll ips resolve, p.2.Inv := by
  intro p hp
  unfold refreshAll at hp
  rw [List.mem_map] at hp
  obtain ⟨q, hq, rfl⟩ := hp
  exact update_preserves_inv q.2 (resolve q.1) (h q hq)

theorem update_record_not_panicked (svc : DynService) (rate : Option Nat)
    (ips : List IpAddr) (call : CallOutcome)
    (hfind : ips.find? IpAddr.isV4 ≠ none ∨ ips.find? IpAddr.isV6 ≠ none) :
    (Service.update_record svc rate ips call).outcome ≠ .panicked := by
  have hif : ¬ (ips.find? IpAddr.isV4 = none ∧ ips.find? IpAddr.isV6 = none) := by
    rcases hfind with h | h <;> intro hc
    · exact h hc.1
    · exact h hc.2
  cases hs : svc.suspended with
  | indefinite =>
    rw [update_record_indefinite svc rate ips call hs]
    intro h
    cases h
  | cycles n =>
    cases n with
    | succ m =>
      rw [update_record_cycles_pos svc rate ips call m hs]
      intro h
      cases h
    | zero =>
      unfold Service.update_record
      rw [hs]
      simp only
      rw [if_neg hif]
      cases call with
      | transport m => intro h; cases h
      | response b =>
        cases b with
        | error m => intro h; cases h
        | ok body =>
          simp only
          cases hstrip : stripFront "good".toList body.toList with
          | some rest =>
            simp only
            split <;> (intro h; cases h)
          | none =>
            simp only
            split
            · intro h; cases h
            · split <;> (intro h; cases h)

/-! ### C2: when a cycle calls providers and rewrites the state file -/

/-- C2 counterexample: a cycle in which a DynamicIp is dirty after the
refresh phase but no DDNS target references it does NOT rebuild or write
the persistent state — `is_ip_updated` is accumulated only inside the
per-service loop.  Concretely: one IP, freshly resolved (hence dirty), an
empty service list; the state file is left untouched. -/
theorem cycle_rewrite_counterexample :
    ((cycle [([1], { address := none, dirty := false, service := .execV4 "c" })]
        (fun _ => .ok (.v4 ⟨7, by norm_num⟩)) [] (fun _ _ => .ok [])
        0 0).ips.any fun p => p.2.is_dirty) = true ∧
      (cycle [([1], { address := none, dirty := false, service := .execV4 "c" })]
        (fun _ => .ok (.v4 ⟨7, by norm_num⟩)) [] (fun _ _ => .ok [])
        0 0).written = none := by
  constructor
  · decide
  · decide

/-- C2 (amended): in every cycle in which no DynamicIp is dirty after the
refresh phase, zero provider `update_record` calls are made and the
persistent-state file is not rewritten.  The state file is rebuilt (from
the current address map, with a fresh timestamp and the startup
configuration fingerprint) and a write is attempted exactly when at least
one configured DDNS target has a dirty dependency IP — independently of
the provider-call outcomes, so also when a provider call fails; a dirty
IP that no DDNS target references does not trigger the rewrite. -/
theorem cycle_spec (ips : List (List Nat × DynamicIp))
    (resolve : List Nat → Except DynamicIpError IpAddr)
    (services : List (List Nat × List (List Nat)))
    (results : List Nat → List IpAddr → Except DdnsUpdateError (List IpAddr))
    (config_hash now : Nat) :
    ((∀ p ∈ (cycle ips resolve services results config_hash now).ips,
        p.2.is_dirty = false) →
      (cycle ips resolve services results config_hash now).calls = [] ∧
        (cycle ips resolve services results config_hash now).written = none) ∧
    ((cycle ips resolve services results config_hash now).written.isSome =
      services.any fun sv => serviceIsDirty (refreshAll ips resolve) sv.2) ∧
    (∀ results2,
      (cycle ips resolve services results2 config_hash now).written =
        (cycle ips resolve services results config_hash now).written) ∧
    ((cycle ips resolve services results config_hash now).is_ip_updated = true →
      (cycle ips resolve services results config_hash now).written =
        some { version := STATE_VERSION
               update_timestamp := now
               config_hash := config_hash
               ip_addresses :=
                 (cycle ips resolve services results config_hash now).ips.filterMap
                   fun p => p.2.address.map fun a => (p.1, a) }) := by
  refine ⟨?_, ?_, ?_, ?_⟩
  · intro hclean
    have hsd : ∀ sv ∈ services, serviceIsDirty (refreshAll ips resolve) sv.2 = false :=
      fun sv _ => serviceIsDirty_false _ hclean sv.2
    constructor
    · simp only [cycle]
      rw [List.filter_eq_nil_iff.mpr (by intro sv hsv; simp [hsd sv hsv])]
      rfl
    · simp only [cycle]
      rw [if_neg]
      rw [List.any_eq_true]
      rintro ⟨sv, hsv, hdirty⟩
      rw [hsd sv hsv] at hdirty
      cases hdirty
  · simp only [cycle]
    split
    · next h => simp [h]
    · next h => simp [h]
  · intro results2
    rfl
  · intro hupd
    simp only [cycle] at hupd ⊢
    rw [if_pos hupd]

/-- Witness for C2: a concrete all-clean cycle (the resolution fails, the
sole IP stays clean) makes no calls and leaves the file untouched. -/
theorem cycle_spec_witness :
    (cycle [([1], { address := some (.v4 ⟨7, by norm_num⟩), dirty := false,
                    service := .execV4 "c" })]
        (fun _ => .error .interfaceFailure) [([9], [[1]])]
        (fun _ _ => .ok []) 0 0).calls = [] ∧
      (cycle [([1], { address := some (.v4 ⟨7, by norm_num⟩), dirty := false,
                      service := .execV4 "c" })]
        (fun _ => .error .interfaceFailure) [([9], [[1]])]
        (fun _ _ => .ok []) 0 0).written = none := by
  exact (cycle_spec
    [([1], { address := some (.v4 ⟨7, by norm_num⟩), dirty := false,
             service := .execV4 "c" })]
    (fun _ => .error .interfaceFailure) [([9], [[1]])]
    (fun _ _ => .ok []) 0 0).1 (by decide)

/-! ### C9: dirty implies resolved; the unreachable branch is dead -/

/-- C9: the invariant `is_dirty = true → address is Some` holds for every
reachable `DynamicIp`: construction yields (no address, not dirty), a
successful update sets the address together with the dirty bit, a failed
update changes nothing, and cache seeding sets the address without
touching the dirty bit.  Consequently every DDNS target selected as dirty
by the orchestrator gathers at least one resolved address, and the shared
engine's `unreachable!()` branch — taken only when the submitted slice
holds neither an IPv4 nor an IPv6 address — is never executed on a
gathered slice. -/
theorem dirty_implies_address (c : IpConfig) :
    (∀ d, DynamicIp.from_config c = .ok d →
      d.Inv ∧ d.address = none ∧ d.dirty = false) ∧
    (∀ (d : DynamicIp) r, d.Inv → ((d.update r).1).Inv) ∧
    (∀ (d : DynamicIp) a, (d.update (.ok a)).1.address = some a) ∧
    (∀ (d : DynamicIp) e, (d.update (.error e)).1 = d) ∧
    (∀ (d : DynamicIp) a, (d.update_from_cache a).Inv ∧
      (d.update_from_cache a).dirty = d.dirty) ∧
    (∀ (ips : List (List Nat × DynamicIp)) resolve
        (services : List (List Nat × List (List Nat))) results ch now,
      (∀ p ∈ ips, p.2.Inv) →
      ∀ nm g, (nm, g) ∈ (cycle ips resolve services results ch now).calls →
        g ≠ []) ∧
    (∀ (l : List IpAddr), l ≠ [] → ∀ svc rate call,
      (Service.update_record svc rate l call).outcome ≠ .panicked) := by
  refine ⟨?_, update_preserves_inv, ?_, ?_, ?_, ?_, ?_⟩
  · intro d h
    unfold DynamicIp.from_config at h
    cases hs : IpService.from_config c with
    | ok s =>
      rw [hs] at h
      simp only [Except.map] at h
      cases h
      refine ⟨?_, rfl, rfl⟩
      intro hd
      cases hd
    | error e =>
      rw [hs] at h
      simp [Except.map] at h
  · intro d a
    simp [DynamicIp.update]
  · intro d e
    rfl
  · intro d a
    refine ⟨?_, rfl⟩
    intro _
    simp [DynamicIp.update_from_cache]
  · intro ips resolve services results ch now hinv nm g hmem
    simp only [cycle, List.mem_map] at hmem
    obtain ⟨sv, hsv, heq⟩ := hmem
    obtain ⟨h1, h2⟩ := Prod.mk.injEq .. ▸ heq
    rw [List.mem_filter] at hsv
    obtain ⟨hsvmem, hdirty⟩ := hsv
    unfold serviceIsDirty at hdirty
    rw [List.any_eq_true] at hdirty
    obtain ⟨dep, hdep, hdd⟩ := hdirty
    have hinv2 := refreshAll_inv ips resolve hinv
    have haddr := findIp_inv _ hinv2 dep (by simpa [DynamicIp.is_dirty] using hdd)
    rw [Option.isSome_iff_exists] at haddr
    obtain ⟨a, ha⟩ := haddr
    have hmem2 : a ∈ gatherIps (refreshAll ips resolve) sv.2 := by
      unfold gatherIps
      rw [List.mem_filterMap]
      exact ⟨dep, hdep, ha⟩
    rw [← h2]
    exact List.ne_nil_of_mem hmem2
  · intro l hl svc rate call
    apply update_record_not_panicked
    cases l with
    | nil => exact absurd rfl hl
    | cons x xs =>
      cases x with
      | v4 a =>
        left
        simp [List.find?, IpAddr.isV4]
      | v6 a =>
        right
        simp [List.find?, IpAddr.isV6]

/-- Witness for C9: a concrete cycle in which the one dirty service
gathers the freshly resolved address, and the engine on that slice does
not panic. -/
theorem dirty_implies_address_witness :
    (cycle [([1], { address := none, dirty := false, service := .execV4 "c" })]
        (fun _ => .ok (.v4 ⟨7, by norm_num⟩)) [([9], [[1]])]
        (fun _ _ => .ok []) 0 0).calls = [([9], [.v4 ⟨7, by norm_num⟩])] ∧
      (Service.update_record
        { name := "noip", server := "srv", suspended := .cycles 0 }
        (some 60) [.v4 ⟨7, by norm_num⟩]
        (.response (.ok "good"))).outcome ≠ .panicked := by
  constructor
  · decide
  · exact (dirty_implies_address
      { version := .v4, method := .exec "c" }).2.2.2.2.2.2
      [.v4 ⟨7, by norm_num⟩] (by decide)
      { name := "noip", server := "srv", suspended := .cycles 0 }
      (some 60) (.response (.ok "good"))

end Dynners
